import Mathlib

set_option maxRecDepth 20000

/-!
Verification development for the switcher-js protocol client
(`src/switcher.js`).  The JavaScript source is shallowly embedded:

* byte buffers are `List Nat` (each element a byte value `< 256`);
* JavaScript hex strings (`buffer.toString('hex')`) are `List Char`
  produced by `bytesHex`;
* JavaScript UTF-16 strings (`buffer.toString()`) are `List Nat` of
  UTF-16 code units produced by a lenient UTF-8 decoder (`utf8d`,
  `utf16units`), matching Node's replacement-character policy;
* `struct.pack('<I', n)` / `struct.pack('>I', n)` are `packLE4` /
  `packBE4`;
* fallible JavaScript behaviour (a function that can return
  `undefined`, a socket operation that can throw) is `Option` /
  `Except`.

The CRC16 primitive lives in `src/crc.js`, which is not part of the
sources given here; it is modelled from the specification (see
`crcRound` / `crc16ccitt` below).
-/

/-- One hex digit, lower case, as produced by `Buffer.toString('hex')`. -/
def hexDigit (n : Nat) : Char :=
  match n with
  | 0 => '0' | 1 => '1' | 2 => '2' | 3 => '3'
  | 4 => '4' | 5 => '5' | 6 => '6' | 7 => '7'
  | 8 => '8' | 9 => '9' | 10 => 'a' | 11 => 'b'
  | 12 => 'c' | 13 => 'd' | 14 => 'e' | _ => 'f'

/-- Numeric value of a (lower-case) hex digit, as used by `parseInt(s, 16)`
on the well-formed hex strings this client produces. -/
def hexVal (c : Char) : Nat :=
  if c = '1' then 1 else if c = '2' then 2 else if c = '3' then 3
  else if c = '4' then 4 else if c = '5' then 5 else if c = '6' then 6
  else if c = '7' then 7 else if c = '8' then 8 else if c = '9' then 9
  else if c = 'a' then 10 else if c = 'b' then 11 else if c = 'c' then 12
  else if c = 'd' then 13 else if c = 'e' then 14 else if c = 'f' then 15
  else 0

/-- The two hex characters of one byte. -/
def byteHex (b : Nat) : List Char := [hexDigit (b / 16), hexDigit (b % 16)]

/-- `buffer.toString('hex')`: hex characters of a byte list. -/
def bytesHex : List Nat → List Char
  | [] => []
  | b :: t => byteHex b ++ bytesHex t

/-- JavaScript `String.prototype.substr(i, n)` (for non-negative `i`). -/
def substr {α : Type} (l : List α) (i n : Nat) : List α := (l.drop i).take n

/-- `parseInt(s, 16)` on a well-formed hex string. -/
def parseHex (cs : List Char) : Nat := cs.foldl (fun a c => a * 16 + hexVal c) 0

/-- `Buffer.from(s, 'hex')`: decode pairs of hex characters to bytes
(a trailing lone character is dropped, as Node does). -/
def hexToBytes : List Char → List Nat
  | c1 :: c2 :: rest => (hexVal c1 * 16 + hexVal c2) :: hexToBytes rest
  | _ => []

/-- `struct.pack('>I', n)`: 4 bytes, big endian. -/
def packBE4 (n : Nat) : List Nat :=
  [n / 16777216 % 256, n / 65536 % 256, n / 256 % 256, n % 256]

/-- `struct.pack('<I', n)`: 4 bytes, little endian. -/
def packLE4 (n : Nat) : List Nat :=
  [n % 256, n / 256 % 256, n / 65536 % 256, n / 16777216 % 256]

/-- Value of a little-endian byte list (least significant byte first). -/
def leValue : List Nat → Nat
  | [] => 0
  | b :: t => b + 256 * leValue t

/-- Byte of a buffer at an index (0 when out of range). -/
def byteAt (l : List Nat) (i : Nat) : Nat := l.getD i 0

/-!  CRC16.  Modelled from the spec: `src/crc.js` (the `crc16ccitt`
function required by `switcher.js`) is not among the given sources.
Spec §4.1: polynomial 0x1021, initial accumulator 0, byte-wise and
MSB-first — XOR the byte into the high byte of the 16-bit accumulator,
then 8 times: if the high bit is set, shift left and XOR 0x1021, else
shift left.  No reflection. -/

/-- One shift-and-conditionally-XOR round of the byte-wise CRC16-CCITT. -/
def crcRound (acc : Nat) : Nat :=
  if acc.testBit 15 then ((acc * 2) % 65536) ^^^ 4129 else (acc * 2) % 65536

/-- Iterate a function `n` times. -/
def iterN (f : Nat → Nat) : Nat → Nat → Nat
  | 0, a => a
  | n + 1, a => iterN f n (f a)

/-- Process one byte: XOR into the high byte, then 8 rounds. -/
def crcByte (acc b : Nat) : Nat := iterN crcRound 8 (acc ^^^ (b <<< 8))

/-- Modelled from the spec: the `crc16ccitt` primitive of `src/crc.js`
as described in §4.1 (polynomial 0x1021, initial accumulator 0,
MSB-first, no reflection). -/
def crc16ccitt (bs : List Nat) : Nat := bs.foldl crcByte 0

/-- The 8 bits of a byte, most significant first. -/
def byteBits (b : Nat) : List Bool :=
  [b.testBit 7, b.testBit 6, b.testBit 5, b.testBit 4,
   b.testBit 3, b.testBit 2, b.testBit 1, b.testBit 0]

/-- The bit stream of a message, bytes in order, MSB-first inside a byte. -/
def allBits : List Nat → List Bool
  | [] => []
  | b :: t => byteBits b ++ allBits t

/-- Reference bit-serial CRC16-CCITT step (LFSR formulation): feedback is
the XOR of the accumulator's top bit with the incoming bit; shift left,
and XOR the polynomial when the feedback is set. -/
def refCrcBit (acc : Nat) (b : Bool) : Nat :=
  if (acc.testBit 15) != b then ((acc * 2) % 65536) ^^^ 4129
  else (acc * 2) % 65536

/-- Reference CRC16-CCITT: run the bit-serial LFSR over the whole bit
stream, initial accumulator 0, polynomial 0x1021, no reflection. -/
def refCrc16 (bs : List Nat) : Nat := (allBits bs).foldl refCrcBit 0

/-- Helper for relating the two CRC formulations: the value of a bit list
placed with its head at bit position `p`, later bits below it. -/
def msbAlignAux : Nat → List Bool → Nat
  | _, [] => 0
  | p, b :: rest => (if b then 2 ^ p else 0) + msbAlignAux (p - 1) rest

/-- Constant `P_SESSION` of `switcher.js`. -/
def P_SESSION : String := "00000000"

/-- Constant `P_KEY` of `switcher.js`: 32 ASCII zero characters. -/
def P_KEY : String := "00000000000000000000000000000000"

/-- `Switcher._crc_sign_full_packet_com_key` on hex-string data:
first CRC over the decoded frame, append its two low bytes swapped;
second CRC over those two swapped bytes followed by the UTF-8 bytes of
the key, append its two low bytes swapped. -/
def _crc_sign_full_packet_com_key (p_data : List Char) (p_key : List Char) : List Char :=
  let crc := bytesHex (packBE4 (crc16ccitt (hexToBytes p_data)))
  let p_data2 := p_data ++ substr crc 6 2 ++ substr crc 4 2
  let crc2 := substr crc 6 2 ++ substr crc 4 2 ++ bytesHex (p_key.map Char.toNat)
  let crc3 := bytesHex (packBE4 (crc16ccitt (hexToBytes crc2)))
  p_data2 ++ substr crc3 6 2 ++ substr crc3 4 2

/-!  `buffer.toString()`: Node decodes the buffer as UTF-8 into a UTF-16
string, replacing each maximal invalid subpart with U+FFFD (the WHATWG
decoder V8 implements).  `utf8d` yields the scalar values, `utf16units`
the UTF-16 code units JavaScript strings index by. -/

/-- Lenient UTF-8 decode of a byte list to Unicode scalar values,
replacement character 0xFFFD = 65533 per maximal invalid subpart. -/
def utf8dF : Nat → List Nat → List Nat
  | 0, _ => []
  | _ + 1, [] => []
  | fuel + 1, b :: rest =>
    if b < 128 then b :: utf8dF fuel rest
    else if b < 194 then 65533 :: utf8dF fuel rest
    else if b < 224 then
      match rest with
      | [] => [65533]
      | c1 :: r1 =>
        if 128 ≤ c1 ∧ c1 < 192 then ((b - 192) * 64 + (c1 - 128)) :: utf8dF fuel r1
        else 65533 :: utf8dF fuel (c1 :: r1)
    else if b < 240 then
      match rest with
      | [] => [65533]
      | c1 :: r1 =>
        if (if b = 224 then 160 else 128) ≤ c1 ∧ c1 < (if b = 237 then 160 else 192) then
          match r1 with
          | [] => [65533]
          | c2 :: r2 =>
            if 128 ≤ c2 ∧ c2 < 192 then
              ((b - 224) * 4096 + (c1 - 128) * 64 + (c2 - 128)) :: utf8dF fuel r2
            else 65533 :: utf8dF fuel (c2 :: r2)
        else 65533 :: utf8dF fuel (c1 :: r1)
    else if b < 245 then
      match rest with
      | [] => [65533]
      | c1 :: r1 =>
        if (if b = 240 then 144 else 128) ≤ c1 ∧ c1 < (if b = 244 then 144 else 192) then
          match r1 with
          | [] => [65533]
          | c2 :: r2 =>
            if 128 ≤ c2 ∧ c2 < 192 then
              match r2 with
              | [] => [65533]
              | c3 :: r3 =>
                if 128 ≤ c3 ∧ c3 < 192 then
                  ((b - 240) * 262144 + (c1 - 128) * 4096 + (c2 - 128) * 64 + (c3 - 128)) ::
                    utf8dF fuel r3
                else 65533 :: utf8dF fuel (c3 :: r3)
            else 65533 :: utf8dF fuel (c2 :: r2)
        else 65533 :: utf8dF fuel (c1 :: r1)
    else 65533 :: utf8dF fuel rest

/-- The decoder applied with enough fuel: every step consumes at least
one byte, so the buffer's length bounds the recursion depth. -/
def utf8d (l : List Nat) : List Nat := utf8dF l.length l

/-- Unicode scalar values to UTF-16 code units (surrogate pairs for the
astral plane). -/
def utf16units : List Nat → List Nat
  | [] => []
  | s :: t =>
    if s < 65536 then s :: utf16units t
    else (55296 + (s - 65536) / 1024) :: (56320 + (s - 65536) % 1024) :: utf16units t

/-- `this.data_hex = message_buffer.toString('hex')`. -/
def data_hex (msg : List Nat) : List Char := bytesHex msg

/-- `this.data_str = message_buffer.toString()`, as UTF-16 code units. -/
def data_str (msg : List Nat) : List Nat := utf16units (utf8d msg)

/-- `SwitcherUDPMessage.is_valid`, exactly as the source computes it:
`!(hex.substr(0,4) != 'fef0' && buf.byteLength != 165)`. -/
def is_valid (msg : List Nat) : Bool :=
  !((substr (data_hex msg) 0 4 != "fef0".data) && (msg.length != 165))

/-- Constant `OFF` of `switcher.js`. -/
def OFF : Nat := 0

/-- Constant `ON` of `switcher.js`. -/
def ON : Nat := 1

/-- JavaScript `ToInt32`: reduce mod 2^32 into the signed 32-bit range. -/
def toInt32 (n : Nat) : Int :=
  if n % 4294967296 < 2147483648 then (n % 4294967296 : Int)
  else (n % 4294967296 : Int) - 4294967296

/-- JavaScript `n >> k` (signed right shift): `ToInt32`, then an
arithmetic shift, i.e. floor division by `2^k`; for a positive divisor
Lean's Int division is exactly that floor. -/
def jsShr (n : Nat) (k : Nat) : Int := toInt32 n / (2 ^ k : Int)

/-- JavaScript `i & 0xFF` on an int32 value: the low byte of the
two's-complement representation, i.e. the non-negative residue mod 256. -/
def jsAnd255 (i : Int) : Int := i % 256

/-- JavaScript `i >>> 0` (`ToUint32`): non-negative residue mod 2^32. -/
def jsUShr0 (i : Int) : Nat := (i % 4294967296).toNat

/-- `SwitcherUDPMessage.inet_ntoa`. -/
def inet_ntoa (num : Nat) : String :=
  let a := jsUShr0 (jsAnd255 (jsShr num 24))
  let b := jsUShr0 (jsAnd255 (jsShr num 16))
  let c := jsUShr0 (jsAnd255 (jsShr num 8))
  let d := jsUShr0 (jsAnd255 (toInt32 num))
  Nat.repr a ++ "." ++ Nat.repr b ++ "." ++ Nat.repr c ++ "." ++ Nat.repr d

/-- `SwitcherUDPMessage.extract_ip_addr`. -/
def extract_ip_addr (msg : List Nat) : String :=
  let ip_addr_section := substr (data_hex msg) 152 8
  let ip_addr_int := parseHex (substr ip_addr_section 0 2 ++ substr ip_addr_section 2 2 ++
    substr ip_addr_section 4 2 ++ substr ip_addr_section 6 2)
  inet_ntoa ip_addr_int

/-- `SwitcherUDPMessage.extract_device_name`:
`data_str.substr(40, 32).replace(/\0/g, '')`, on UTF-16 code units. -/
def extract_device_name (msg : List Nat) : List Nat :=
  (substr (data_str msg) 40 32).filter (fun u => u != 0)

/-- `SwitcherUDPMessage.extract_device_id`: `data_hex.substr(36, 6)`. -/
def extract_device_id (msg : List Nat) : List Char := substr (data_hex msg) 36 6

/-- `SwitcherUDPMessage.extract_switch_state`. -/
def extract_switch_state (msg : List Nat) : Nat :=
  if substr (data_hex msg) 266 4 = "0000".data then OFF else ON

/-- `SwitcherUDPMessage.extract_shutdown_remaining_seconds`. -/
def extract_shutdown_remaining_seconds (msg : List Nat) : Nat :=
  let s := substr (data_hex msg) 294 8
  parseHex (substr s 6 2 ++ substr s 4 2 ++ substr s 2 2 ++ substr s 0 2)

/-- `SwitcherUDPMessage.extract_default_shutdown_seconds`. -/
def extract_default_shutdown_seconds (msg : List Nat) : Nat :=
  let s := substr (data_hex msg) 310 8
  parseHex (substr s 6 2 ++ substr s 4 2 ++ substr s 2 2 ++ substr s 0 2)

/-- `SwitcherUDPMessage.extract_power_consumption`. -/
def extract_power_consumption (msg : List Nat) : Nat :=
  let s := substr (data_hex msg) 270 4
  parseHex (substr s 2 2 ++ substr s 0 2)

/-- `Switcher._timer_value`: 0 minutes is the literal `"00000000"`,
otherwise the little-endian hex of `minutes * 60`. -/
def _timer_value (minutes : Nat) : List Char :=
  if minutes = 0 then "00000000".data else bytesHex (packLE4 (minutes * 60))

/-- The `on_command` string built by `Switcher.turn_on`:
`ON + '00' + this._timer_value(duration)`. -/
def turn_on_command (duration : Nat) : List Char :=
  (Nat.repr ON).data ++ "00".data ++ _timer_value duration

/-- `Switcher._set_default_shutdown`: the clamp branches log and assign
but do not return, so the function yields `undefined` (`none`) there;
only the in-range branch returns the little-endian hex encoding. -/
def _set_default_shutdown (seconds : Int) : Option (List Char) :=
  if seconds < 3600 then none
  else if 86340 < seconds then none
  else some (bytesHex (packLE4 seconds.toNat))

/-!  Session state and the login/command slice used by the session
claims.  Sent frames are collected as a list of hex strings; `ts` is the
timestamp hex produced at send time and `reply` the TCP reply bytes the
environment would deliver to a login exchange. -/

/-- The fields of a `Switcher` instance that the login/command path reads. -/
structure SwState where
  p_session : Option (List Char)
  device_id : List Char
  phone_id : List Char
  device_pass : List Char

/-- JavaScript truthiness of `this.p_session` (`null`/`undefined` and the
empty string are falsy, any other string truthy). -/
def jsTruthyStr : Option (List Char) → Bool
  | none => false
  | some s => !s.isEmpty

/-- The login frame data built by `Switcher._login` (before signing). -/
def login_data (st : SwState) (ts : List Char) : List Char :=
  "fef052000232a100".data ++ P_SESSION.data ++ "340001000000000000000000".data ++ ts ++
    "00000000000000000000f0fe1c00".data ++ st.phone_id ++ "0000".data ++ st.device_pass ++
    "00000000000000000000000000000000000000000000000000000000".data

/-- `Switcher._login` (successful-exchange path): if a session token is
cached it is returned with no frame sent; otherwise the signed login
frame is sent and the token is read from hex characters 16..24 of the
reply and cached.  Returns (new state, token, frames sent). -/
def _login (st : SwState) (ts : List Char) (reply : List Nat) :
    SwState × List Char × List (List Char) :=
  if jsTruthyStr st.p_session then (st, st.p_session.getD [], [])
  else
    let frame := _crc_sign_full_packet_com_key (login_data st ts) P_KEY.data
    let result_session := substr (bytesHex reply) 16 8
    ({ st with p_session := some result_session }, result_session, [frame])

/-- The power-command frame data built by `Switcher._run_power_command`
(before signing). -/
def power_data (st : SwState) (p_session : List Char) (ts : List Char)
    (command_type : List Char) : List Char :=
  "fef05d0002320102".data ++ p_session ++ "340001000000000000000000".data ++ ts ++
    "00000000000000000000f0fe".data ++ st.device_id ++ "00".data ++ st.phone_id ++
    "0000".data ++ st.device_pass ++
    "000000000000000000000000000000000000000000000000000000000106000".data ++ command_type

/-- `Switcher._run_power_command`: log in (possibly via the cache), then
build, sign and send the power frame.  Returns (new state, frames sent). -/
def _run_power_command (st : SwState) (command_type : List Char) (ts : List Char)
    (reply : List Nat) : SwState × List (List Char) :=
  let r := _login st ts reply
  let data := _crc_sign_full_packet_com_key (power_data r.1 r.2.1 ts command_type) P_KEY.data
  (r.1, r.2.2 ++ [data])

/-- The session-token field of an outbound command frame: hex characters
16..24, right after the fixed 8-byte header. -/
def tokenField (f : List Char) : List Char := substr f 16 8

/-- Whether a frame carries the login opcode header
(`fef052000232a100`). -/
def looksLikeLogin (f : List Char) : Bool := substr f 0 16 == "fef052000232a100".data

/-!  `Switcher.close` and the socket state it touches.  A `net.Socket`
has a `destroyed` flag set by `destroy()`; a `dgram` socket has *no*
`destroyed` property (reading it yields `undefined`), and calling
`close()` on an already-closed dgram socket throws
`ERR_SOCKET_DGRAM_NOT_RUNNING`. -/

/-- The `net.Socket` state `close()` reads and writes. -/
structure TcpSocket where
  destroyed : Bool

/-- The `dgram.Socket` state `close()` touches. -/
structure UdpSocket where
  running : Bool

/-- Reading `status_socket.destroyed` in JavaScript: the property does
not exist on dgram sockets, so the read yields `undefined`. -/
def udpDestroyedProp (_ : UdpSocket) : Option Bool := none

/-- JavaScript truthiness of a possibly-undefined boolean property. -/
def jsTruthyProp : Option Bool → Bool
  | none => false
  | some b => b

/-- The two nullable socket fields of a `Switcher` instance. -/
structure CloseState where
  socket : Option TcpSocket
  status_socket : Option UdpSocket

/-- `dgram.Socket.close()`: throws `ERR_SOCKET_DGRAM_NOT_RUNNING` when
the socket is not running. -/
def dgram_close (u : UdpSocket) : Except String UdpSocket :=
  if u.running then .ok { running := false }
  else .error "ERR_SOCKET_DGRAM_NOT_RUNNING"

/-- `Switcher.close()`: destroy the TCP socket if present and not yet
destroyed, then close the status socket if present and its (nonexistent)
`destroyed` property is falsy. -/
def switcher_close (s : CloseState) : Except String CloseState :=
  let s1 : CloseState :=
    match s.socket with
    | some t => if !t.destroyed then { s with socket := some { destroyed := true } } else s
    | none => s
  match s1.status_socket with
  | some u =>
    if !(jsTruthyProp (udpDestroyedProp u)) then
      match dgram_close u with
      | .ok u2 => .ok { s1 with status_socket := some u2 }
      | .error e => .error e
    else .ok s1
  | none => .ok s1

/-!  `Switcher.discover` timer setup (source lines 148–153). -/

/-- A JavaScript number that may be NaN. -/
inductive JsNum where
  | nan : JsNum
  | num : Nat → JsNum

/-- `discovery_timeout * 1000`: multiplying `undefined` yields NaN. -/
def jsMulSeconds : Option Nat → JsNum
  | none => JsNum.nan
  | some s => JsNum.num (s * 1000)

/-- The timer setup in `Switcher.discover`: the line
`if (discovery_timeout);` ends in a semicolon, so its body is the empty
statement and the following `setTimeout` call runs unconditionally.
Returns (timer scheduled?, delay passed to `setTimeout`). -/
def discover_timer_setup (discovery_timeout : Option Nat) : Bool × JsNum :=
  (true, jsMulSeconds discovery_timeout)

/-- Node's `setTimeout` delay coercion: a delay that is NaN, below 1 or
above 2^31 - 1 is set to 1 ms. -/
def node_timeout_delay : JsNum → Nat
  | JsNum.nan => 1
  | JsNum.num n => if n < 1 ∨ 2147483647 < n then 1 else n

/-!  Concrete inputs used by witnesses and counterexamples. -/

/-- A well-formed 165-byte broadcast frame carrying distinctive field
values at the documented offsets. -/
def c6frame : List Nat :=
  [254, 240] ++ List.replicate 16 0 ++ [170, 187, 204] ++ List.replicate 55 0 ++
    [192, 168, 1, 5] ++ List.replicate 53 0 ++ [1, 0] ++ [44, 1] ++
    List.replicate 10 0 ++ [60, 0, 0, 0] ++ List.replicate 4 0 ++
    [16, 14, 0, 0] ++ List.replicate 6 0

/-- Bytes 2..165 of a broadcast frame whose device name (bytes 40..72 of
the frame) is "NAME!!!!" and whose bytes 20..40 hold a different,
NUL-free pattern. -/
def ex7rest : List Nat :=
  List.replicate 18 0 ++ List.replicate 20 88 ++ [78, 65, 77, 69, 33, 33, 33, 33] ++
    List.replicate 117 0

/-- The full 165-byte frame `0xFE 0xF0 ++ ex7rest`. -/
def ex7frame : List Nat := 254 :: 240 :: ex7rest

/-- A logged-in session state used by the session witness. -/
def swState0 : SwState :=
  { p_session := some "1a2b3c4d".data
    device_id := "aabbcc".data
    phone_id := "0000".data
    device_pass := "00000000".data }

/-!  Claim theorems: simple closed facts first. -/

/-- Claim C1 (code bug): `is_valid` accepts a 165-byte buffer whose
first two bytes are not `0xFE 0xF0`, and a 164-byte buffer that starts
with `0xFE 0xF0` — the source negates the conjunction the wrong way
round, computing `magicOk OR lengthOk` instead of the claimed
`magicOk AND lengthOk`. -/
theorem claim_C1 :
    is_valid (List.replicate 165 0) = true ∧
    (List.replicate 165 0).length = 165 ∧
    (List.replicate 165 0).take 2 ≠ [254, 240] ∧
    is_valid (254 :: 240 :: List.replicate 162 0) = true ∧
    (254 :: 240 :: List.replicate 162 0).length = 164 := by
  refine ⟨?_, ?_, ?_, ?_, ?_⟩ <;> decide

/-- Claim C2 (code bug): `_set_default_shutdown` yields `undefined`
(`none`) for the inputs the claim says are clamped and encoded (100 and
999999), because the clamp branches assign but never return; the
in-range input 7200 is encoded as little-endian `201c0000` as claimed. -/
theorem claim_C2 :
    _set_default_shutdown 100 = none ∧
    _set_default_shutdown 999999 = none ∧
    _set_default_shutdown 7200 = some (bytesHex (packLE4 7200)) ∧
    bytesHex (packLE4 7200) = "201c0000".data := by
  refine ⟨?_, ?_, ?_, ?_⟩ <;> decide

/-- Claim C9 (code bug): the first `close()` on an instance with an open
TCP socket and a running status listener releases both, but a second
`close()` raises `ERR_SOCKET_DGRAM_NOT_RUNNING` instead of being a
no-op: the guard reads `status_socket.destroyed`, a property dgram
sockets do not have, so `close()` is invoked on the listener again. -/
theorem claim_C9 :
    switcher_close { socket := some { destroyed := false },
                     status_socket := some { running := true } } =
      .ok { socket := some { destroyed := true }, status_socket := some { running := false } } ∧
    switcher_close { socket := some { destroyed := true },
                     status_socket := some { running := false } } =
      .error "ERR_SOCKET_DGRAM_NOT_RUNNING" := by
  exact ⟨rfl, rfl⟩

/-- Claim C10: the discovery close timer is scheduled for every value of
`discovery_timeout` (the guard `if (discovery_timeout);` is an empty
statement), and when `discovery_timeout` is `undefined` the computed
delay is NaN, which Node's `setTimeout` coerces to the minimal 1 ms —
the socket is closed on the earliest timer tick. -/
theorem claim_C10 :
    (∀ t : Option Nat, (discover_timer_setup t).1 = true) ∧
    (discover_timer_setup none).2 = JsNum.nan ∧
    node_timeout_delay (discover_timer_setup none).2 = 1 := by
  exact ⟨fun _ => rfl, rfl, rfl⟩

/-!  Hex-encoding infrastructure. -/

/-- `hexVal` inverts `hexDigit` on digit values. -/
theorem hexVal_hexDigit : ∀ d, d < 16 → hexVal (hexDigit d) = d := by decide

/-- Decoding one encoded byte from the front of a hex string. -/
theorem hexToBytes_byteHex_append (b : Nat) (hb : b < 256) (rest : List Char) :
    hexToBytes (byteHex b ++ rest) = b :: hexToBytes rest := by
  have h1 : b / 16 < 16 := by omega
  have h2 : b % 16 < 16 := by omega
  show (hexVal (hexDigit (b / 16)) * 16 + hexVal (hexDigit (b % 16))) :: hexToBytes rest = _
  rw [hexVal_hexDigit _ h1, hexVal_hexDigit _ h2]
  congr 1
  omega

/-- `Buffer.from(buf.toString('hex'), 'hex')` round-trips. -/
theorem hexToBytes_bytesHex : ∀ l : List Nat, (∀ b ∈ l, b < 256) → hexToBytes (bytesHex l) = l
  | [], _ => rfl
  | b :: t, h => by
    have hb : b < 256 := h b (List.mem_cons_self b t)
    show hexToBytes (byteHex b ++ bytesHex t) = b :: t
    rw [hexToBytes_byteHex_append b hb,
      hexToBytes_bytesHex t (fun x hx => h x (List.mem_cons_of_mem b hx))]

/-- Folding the hex-digit accumulator across one encoded byte. -/
theorem foldlHex_byteHex (a b : Nat) (hb : b < 256) (rest : List Char) :
    List.foldl (fun x c => x * 16 + hexVal c) a (byteHex b ++ rest) =
      List.foldl (fun x c => x * 16 + hexVal c) (a * 256 + b) rest := by
  have h1 : b / 16 < 16 := by omega
  have h2 : b % 16 < 16 := by omega
  have e : (a * 16 + hexVal (hexDigit (b / 16))) * 16 + hexVal (hexDigit (b % 16)) =
      a * 256 + b := by
    rw [hexVal_hexDigit _ h1, hexVal_hexDigit _ h2]; omega
  calc List.foldl (fun x c => x * 16 + hexVal c) a (byteHex b ++ rest)
      = List.foldl (fun x c => x * 16 + hexVal c)
          ((a * 16 + hexVal (hexDigit (b / 16))) * 16 + hexVal (hexDigit (b % 16))) rest := rfl
    _ = _ := by rw [e]

/-- Dropping `2 * i` hex characters drops `i` bytes. -/
theorem bytesHex_drop : ∀ (l : List Nat) (i : Nat), (bytesHex l).drop (2 * i) = bytesHex (l.drop i)
  | _, 0 => by simp
  | [], _ + 1 => by simp [bytesHex]
  | b :: t, i + 1 => by
    have h2 : 2 * (i + 1) = 2 * i + 1 + 1 := by ring
    rw [h2]
    show (hexDigit (b / 16) :: hexDigit (b % 16) :: bytesHex t).drop (2 * i + 1 + 1) =
      bytesHex ((b :: t).drop (i + 1))
    rw [List.drop_succ_cons, List.drop_succ_cons]
    exact bytesHex_drop t i

/-- Taking `2 * n` hex characters takes `n` bytes. -/
theorem bytesHex_take : ∀ (l : List Nat) (n : Nat), (bytesHex l).take (2 * n) = bytesHex (l.take n)
  | _, 0 => by simp [bytesHex]
  | [], _ + 1 => by simp [bytesHex]
  | b :: t, n + 1 => by
    have h2 : 2 * (n + 1) = 2 * n + 1 + 1 := by ring
    rw [h2]
    show (hexDigit (b / 16) :: hexDigit (b % 16) :: bytesHex t).take (2 * n + 1 + 1) =
      bytesHex ((b :: t).take (n + 1))
    rw [List.take_succ_cons, List.take_succ_cons]
    show hexDigit (b / 16) :: hexDigit (b % 16) :: (bytesHex t).take (2 * n) = _
    rw [bytesHex_take t n]
    rfl

/-- `substr` on a hex string at even offsets is `substr` on bytes. -/
theorem substr_bytesHex (l : List Nat) (i n : Nat) :
    substr (bytesHex l) (2 * i) (2 * n) = bytesHex (substr l i n) := by
  unfold substr
  rw [bytesHex_drop, bytesHex_take]

/-- Composing two `substr`s that stay inside the outer window. -/
theorem substr_substr {α : Type} (l : List α) (i n j m : Nat) (h : j + m ≤ n) :
    substr (substr l i n) j m = substr l (i + j) m := by
  show List.take m (List.drop j (List.take n (List.drop i l))) =
    List.take m (List.drop (i + j) l)
  rw [List.drop_take, List.take_take, List.drop_drop, Nat.min_eq_left (by omega)]

/-- Dropping to a valid index exposes that element. -/
theorem drop_getD : ∀ (l : List Nat) (i : Nat), i < l.length →
    l.drop i = l.getD i 0 :: l.drop (i + 1)
  | _ :: _, 0, _ => rfl
  | a :: t, i + 1, h => by
    show t.drop i = (a :: t).getD (i + 1) 0 :: t.drop (i + 1)
    have e : (a :: t).getD (i + 1) 0 = t.getD i 0 := by simp [List.getD]
    rw [e]
    exact drop_getD t i (by simpa using h)
  | [], i, h => by simp at h

/-- Peeling one byte off a `substr` window. -/
theorem substr_succ (l : List Nat) (i n : Nat) (h : i < l.length) :
    substr l i (n + 1) = l.getD i 0 :: substr l (i + 1) n := by
  show List.take (n + 1) (List.drop i l) = _
  rw [drop_getD l i h, List.take_succ_cons]
  rfl

/-- Decoding a single encoded byte. -/
theorem hexToBytes_byteHex (b : Nat) (hb : b < 256) : hexToBytes (byteHex b) = [b] := by
  have h := hexToBytes_byteHex_append b hb []
  simpa using h

/-- Hex characters 6..8 of a big-endian packed word are its low byte. -/
theorem packBE4_lo (c : Nat) : substr (bytesHex (packBE4 c)) 6 2 = byteHex (c % 256) := rfl

/-- Hex characters 4..6 of a big-endian packed word are its second byte. -/
theorem packBE4_hi (c : Nat) : substr (bytesHex (packBE4 c)) 4 2 = byteHex (c / 256 % 256) := rfl

/-- Claim C3: signing appends exactly 4 bytes to the frame — first the
low two bytes of `crc16(frame)` byte-swapped, then the low two bytes of
`crc16(those two swapped bytes ++ fixed key)` byte-swapped, the fixed
key being the 32-byte ASCII string of zero characters (bytes 0x30 = 48)
— and leaves the original frame unchanged as a prefix. -/
theorem claim_C3 (f : List Char) :
    (_crc_sign_full_packet_com_key f P_KEY.data).take f.length = f ∧
    (_crc_sign_full_packet_com_key f P_KEY.data).length = f.length + 8 ∧
    hexToBytes ((_crc_sign_full_packet_com_key f P_KEY.data).drop f.length) =
      [crc16ccitt (hexToBytes f) % 256, crc16ccitt (hexToBytes f) / 256 % 256,
       crc16ccitt ([crc16ccitt (hexToBytes f) % 256,
         crc16ccitt (hexToBytes f) / 256 % 256] ++ List.replicate 32 48) % 256,
       crc16ccitt ([crc16ccitt (hexToBytes f) % 256,
         crc16ccitt (hexToBytes f) / 256 % 256] ++ List.replicate 32 48) / 256 % 256] ∧
    P_KEY.data.map Char.toNat = List.replicate 32 48 := by
  set c1 := crc16ccitt (hexToBytes f) with hc1def
  set c2 := crc16ccitt ([c1 % 256, c1 / 256 % 256] ++ List.replicate 32 48) with hc2def
  set t := _crc_sign_full_packet_com_key f P_KEY.data with htdef
  have ekey : P_KEY.data.map Char.toNat = List.replicate 32 48 := by decide
  have hrep : ∀ b ∈ List.replicate 32 48, b < 256 := by decide
  have ht0 : t = (((f ++ substr (bytesHex (packBE4 c1)) 6 2) ++ substr (bytesHex (packBE4 c1)) 4 2) ++
      substr (bytesHex (packBE4 (crc16ccitt (hexToBytes ((substr (bytesHex (packBE4 c1)) 6 2 ++
          substr (bytesHex (packBE4 c1)) 4 2) ++ bytesHex (P_KEY.data.map Char.toNat)))))) 6 2) ++
      substr (bytesHex (packBE4 (crc16ccitt (hexToBytes ((substr (bytesHex (packBE4 c1)) 6 2 ++
          substr (bytesHex (packBE4 c1)) 4 2) ++ bytesHex (P_KEY.data.map Char.toNat)))))) 4 2 := rfl
  rw [packBE4_lo, packBE4_hi] at ht0
  have hc2 : crc16ccitt (hexToBytes ((byteHex (c1 % 256) ++ byteHex (c1 / 256 % 256)) ++
      bytesHex (P_KEY.data.map Char.toNat))) = c2 := by
    rw [ekey, List.append_assoc, hexToBytes_byteHex_append _ (by omega),
      hexToBytes_byteHex_append _ (by omega), hexToBytes_bytesHex _ hrep]
    rfl
  rw [hc2] at ht0
  rw [packBE4_lo, packBE4_hi] at ht0
  refine ⟨?_, ?_, ?_, ekey⟩
  · rw [ht0, List.append_assoc, List.append_assoc, List.append_assoc]
    exact List.take_left f _
  · rw [ht0]
    simp [byteHex]
  · rw [ht0, List.append_assoc, List.append_assoc, List.append_assoc, List.drop_left]
    rw [hexToBytes_byteHex_append _ (by omega), hexToBytes_byteHex_append _ (by omega),
      hexToBytes_byteHex_append _ (by omega), hexToBytes_byteHex _ (by omega)]

/-!  CRC16: the byte-wise algorithm equals the bit-serial reference. -/

/-- Doubling distributes over XOR. -/
theorem mul_two_xor (a b : Nat) : (a ^^^ b) * 2 = (a * 2) ^^^ (b * 2) := by
  apply Nat.eq_of_testBit_eq
  intro i
  cases i with
  | zero =>
    simp [Nat.testBit_xor, Nat.testBit_to_div_mod, Nat.mul_mod_left]
  | succ j =>
    have h : ∀ x : Nat, (x * 2).testBit (j + 1) = x.testBit j := by
      intro x
      have e : x * 2 / 2 = x := by omega
      rw [Nat.testBit_add_one, e]
    rw [Nat.testBit_xor, h, h, h, Nat.testBit_xor]

/-- Reduction mod 2^16 distributes over XOR. -/
theorem xor_mod_two_pow16 (a b : Nat) : (a ^^^ b) % 65536 = (a % 65536) ^^^ (b % 65536) := by
  have h : (65536 : Nat) = 2 ^ 16 := by norm_num
  apply Nat.eq_of_testBit_eq
  intro i
  rw [h]
  simp only [Nat.testBit_mod_two_pow, Nat.testBit_xor]
  by_cases hi : i < 16 <;> simp [hi]

/-- XOR with 0x8000 flips the top bit of a 16-bit accumulator. -/
theorem testBit15_xor_high (x : Nat) : (x ^^^ 32768).testBit 15 = !(x.testBit 15) := by
  have h : (32768 : Nat) = 2 ^ 15 := by norm_num
  rw [Nat.testBit_xor, h, Nat.testBit_two_pow]
  simp

/-- Values below 2^15 have a clear top bit. -/
theorem testBit15_of_lt (x : Nat) (h : x < 32768) : x.testBit 15 = false := by
  have e : (2:Nat) ^ 15 = 32768 := by norm_num
  exact Nat.testBit_lt_two_pow (by omega)

/-- Feeding one bit at the top: a round on the accumulator XORed with
the bit at position 15 is exactly the reference bit step. -/
theorem crcRound_high (acc : Nat) (b : Bool) :
    crcRound (acc ^^^ (if b then 32768 else 0)) = refCrcBit acc b := by
  cases b with
  | false =>
    simp only [crcRound, refCrcBit, Bool.false_eq_true, if_false, Nat.xor_zero]
    cases h : acc.testBit 15 <;> simp [h]
  | true =>
    simp only [crcRound, refCrcBit, if_true]
    have e1 : ((acc ^^^ 32768) * 2) % 65536 = (acc * 2) % 65536 := by
      rw [mul_two_xor, xor_mod_two_pow16]
      have e0 : (32768 * 2 : Nat) % 65536 = 0 := by norm_num
      rw [e0, Nat.xor_zero]
    rw [testBit15_xor_high, e1]
    cases h : acc.testBit 15 <;> simp [h]

/-- A round commutes with XOR by any value below 2^15, which is merely
shifted along. -/
theorem crcRound_xor_low (x A : Nat) (hA : A < 32768) :
    crcRound (x ^^^ A) = crcRound x ^^^ (A * 2) := by
  unfold crcRound
  have ht : (x ^^^ A).testBit 15 = x.testBit 15 := by
    rw [Nat.testBit_xor, testBit15_of_lt A hA]
    simp
  have he : ((x ^^^ A) * 2) % 65536 = ((x * 2) % 65536) ^^^ (A * 2) := by
    have hA2 : A * 2 % 65536 = A * 2 := Nat.mod_eq_of_lt (by omega)
    rw [mul_two_xor, xor_mod_two_pow16, hA2]
  rw [ht, he]
  cases h : x.testBit 15 with
  | false => simp [h]
  | true =>
    simp only [h, if_pos]
    rw [Nat.xor_assoc, Nat.xor_comm (A * 2) 4129, ← Nat.xor_assoc]

/-- Adding a value below 2^15 to 2^15 is XOR (the bits are disjoint). -/
theorem two_pow15_add_eq_xor (A : Nat) (hA : A < 32768) : 32768 + A = 32768 ^^^ A := by
  have e15 : (32768 : Nat) = 2 ^ 15 := by norm_num
  apply Nat.eq_of_testBit_eq
  intro i
  rcases Nat.lt_trichotomy i 15 with hi | hi | hi
  · rw [e15, Nat.testBit_two_pow_add_gt hi, Nat.testBit_xor, Nat.testBit_two_pow]
    have hne : (15 : Nat) ≠ i := by omega
    simp [hne]
  · subst hi
    rw [e15, Nat.testBit_two_pow_add_eq, Nat.testBit_xor,
      testBit15_of_lt A hA, Nat.testBit_two_pow_self]
    simp
  · have e16 : (2:Nat) ^ 16 = 65536 := by norm_num
    have h16 : (2:Nat) ^ 16 ≤ 2 ^ i := Nat.pow_le_pow_right (by norm_num) hi
    have h1 : 32768 + A < 2 ^ i := by omega
    have h2 : A < 2 ^ i := by omega
    have h3 : (32768:Nat) < 2 ^ i := by omega
    rw [Nat.testBit_lt_two_pow h1, Nat.testBit_xor, Nat.testBit_lt_two_pow h2,
      Nat.testBit_lt_two_pow h3]
    simp

/-- An aligned bit list of length at most `p + 1` stays below `2^(p+1)`. -/
theorem msbAlignAux_lt : ∀ (bits : List Bool) (p : Nat), bits.length ≤ p + 1 →
    msbAlignAux p bits < 2 ^ (p + 1)
  | [], p, _ => by simp [msbAlignAux]
  | b :: rest, p, h => by
    cases rest with
    | nil =>
      have hp : (2:Nat) ^ p < 2 ^ (p + 1) := Nat.pow_lt_pow_right (by norm_num) (by omega)
      show (if b then 2 ^ p else 0) + msbAlignAux (p - 1) [] < 2 ^ (p + 1)
      have e0 : msbAlignAux (p - 1) [] = 0 := rfl
      cases b <;>
        simp only [e0, if_true, Bool.false_eq_true, if_false, Nat.add_zero, Nat.zero_add] <;>
        omega
    | cons c cs =>
      have hp : 1 ≤ p := by
        simp only [List.length_cons] at h
        omega
      obtain ⟨q, rfl⟩ : ∃ q, p = q + 1 := ⟨p - 1, by omega⟩
      have ih := msbAlignAux_lt (c :: cs) q (by
        simp only [List.length_cons] at h ⊢
        omega)
      have h2 : (2:Nat) ^ (q + 1 + 1) = 2 ^ (q + 1) + 2 ^ (q + 1) := by ring
      show (if b then 2 ^ (q + 1) else 0) + msbAlignAux q (c :: cs) < 2 ^ (q + 1 + 1)
      cases b <;> simp <;> omega

/-- Doubling an aligned bit list shifts its position up by one. -/
theorem msbAlignAux_mul_two : ∀ (bits : List Bool) (p : Nat), bits.length ≤ p + 1 →
    msbAlignAux p bits * 2 = msbAlignAux (p + 1) bits
  | [], _, _ => by simp [msbAlignAux]
  | b :: rest, p, h => by
    cases rest with
    | nil =>
      show ((if b then 2 ^ p else 0) + msbAlignAux (p - 1) []) * 2 =
        (if b then 2 ^ (p + 1) else 0) + msbAlignAux (p + 1 - 1) []
      cases b <;> simp [msbAlignAux, pow_succ, Nat.mul_comm]
    | cons c cs =>
      have hp : 1 ≤ p := by
        simp only [List.length_cons] at h
        omega
      obtain ⟨q, rfl⟩ : ∃ q, p = q + 1 := ⟨p - 1, by omega⟩
      have ih := msbAlignAux_mul_two (c :: cs) q (by
        simp only [List.length_cons] at h ⊢
        omega)
      show ((if b then 2 ^ (q + 1) else 0) + msbAlignAux q (c :: cs)) * 2 =
        (if b then 2 ^ (q + 1 + 1) else 0) + msbAlignAux (q + 1) (c :: cs)
      rw [Nat.add_mul, ih]
      cases b <;> simp [pow_succ]

/-- Core equivalence: running the byte-wise rounds over an accumulator
holding the aligned bits equals folding the bit-serial step over them. -/
theorem crc_bits_main : ∀ (bits : List Bool) (acc : Nat), bits.length ≤ 16 →
    iterN crcRound bits.length (acc ^^^ msbAlignAux 15 bits) = bits.foldl refCrcBit acc
  | [], acc, _ => by
    show acc ^^^ msbAlignAux 15 [] = acc
    have e0 : msbAlignAux 15 [] = 0 := rfl
    rw [e0, Nat.xor_zero]
  | b :: rest, acc, h => by
    have hlen : rest.length ≤ 15 := by
      simp only [List.length_cons] at h
      omega
    have hA : msbAlignAux 14 rest < 32768 := by
      have h1 := msbAlignAux_lt rest 14 (by omega)
      have e : (2:Nat) ^ (14 + 1) = 32768 := by norm_num
      omega
    have hsplit : (if b then 2 ^ 15 else 0) + msbAlignAux 14 rest =
        (if b then 32768 else 0) ^^^ msbAlignAux 14 rest := by
      cases b with
      | true =>
        have e : (2:Nat) ^ 15 = 32768 := by norm_num
        simp only [if_true, e]
        exact two_pow15_add_eq_xor _ hA
      | false => simp
    show iterN crcRound (rest.length + 1)
        (acc ^^^ ((if b then 2 ^ 15 else 0) + msbAlignAux (15 - 1) rest)) =
      List.foldl refCrcBit (refCrcBit acc b) rest
    have e14 : (15 : Nat) - 1 = 14 := rfl
    rw [e14, hsplit, ← Nat.xor_assoc]
    show iterN crcRound rest.length
        (crcRound ((acc ^^^ (if b then 32768 else 0)) ^^^ msbAlignAux 14 rest)) = _
    rw [crcRound_xor_low _ _ hA, crcRound_high,
      msbAlignAux_mul_two rest 14 (by omega)]
    exact crc_bits_main rest (refCrcBit acc b) (by omega)

/-- The aligned MSB-first bits of a byte are the byte shifted into the
high half of the accumulator. -/
theorem byte_align : ∀ b, b < 256 → msbAlignAux 15 (byteBits b) = b <<< 8 := by decide

/-- Folding the byte-wise CRC over a message equals folding the
bit-serial step over the message's bit stream, for any start value. -/
theorem foldl_crcByte_eq : ∀ (bs : List Nat) (acc : Nat), (∀ b ∈ bs, b < 256) →
    List.foldl crcByte acc bs = List.foldl refCrcBit acc (allBits bs)
  | [], _, _ => rfl
  | b :: t, acc, h => by
    have hb : b < 256 := h b (List.mem_cons_self b t)
    show List.foldl crcByte (crcByte acc b) t =
      List.foldl refCrcBit acc (byteBits b ++ allBits t)
    rw [List.foldl_append]
    have e : crcByte acc b = List.foldl refCrcBit acc (byteBits b) := by
      show iterN crcRound 8 (acc ^^^ (b <<< 8)) = _
      rw [← byte_align b hb]
      have hl : (byteBits b).length = 8 := rfl
      have h2 := crc_bits_main (byteBits b) acc (by rw [hl]; omega)
      rw [hl] at h2
      exact h2
    rw [e]
    exact foldl_crcByte_eq t _ (fun x hx => h x (List.mem_cons_of_mem b hx))

/-- Claim C4: on byte sequences, the CRC the signer uses (the byte-wise
MSB-first algorithm with polynomial 0x1021 and initial accumulator 0)
computes exactly the reference bit-serial CRC16-CCITT with those
parameters. -/
theorem claim_C4 (bs : List Nat) (hb : ∀ b ∈ bs, b < 256) : crc16ccitt bs = refCrc16 bs :=
  foldl_crcByte_eq bs 0 hb

/-- Witness for C4 at the concrete byte sequence "123456789". -/
theorem claim_C4_witness :
    (∀ b ∈ [49, 50, 51, 52, 53, 54, 55, 56, 57], b < 256) ∧
    crc16ccitt [49, 50, 51, 52, 53, 54, 55, 56, 57] =
      refCrc16 [49, 50, 51, 52, 53, 54, 55, 56, 57] :=
  ⟨by decide, claim_C4 _ (by decide)⟩

/-!  Duration encoding of the power-on command. -/

/-- All entries of a packed word are bytes. -/
theorem packLE4_bytes_lt (x : Nat) : ∀ b ∈ packLE4 x, b < 256 := by
  intro b hb
  simp [packLE4] at hb
  rcases hb with h | h | h | h <;> omega

/-- The little-endian value of a packed word below 2^32 is the word. -/
theorem leValue_packLE4 (x : Nat) (hx : x < 4294967296) : leValue (packLE4 x) = x := by
  show x % 256 + 256 * (x / 256 % 256 + 256 * (x / 65536 % 256 +
    256 * (x / 16777216 % 256 + 256 * 0))) = x
  omega

/-- Claim C8: the duration field of the `turn_on` command (the 8 hex
characters after the `"100"` state marker) is the 4-byte little-endian
encoding of `duration_minutes * 60`; for 0 minutes the special-cased
literal `"00000000"` coincides with the little-endian encoding of 0
(four zero bytes, "stay on indefinitely"). -/
theorem claim_C8 (m : Nat) (hm : m * 60 < 4294967296) :
    (turn_on_command m).drop 3 = bytesHex (packLE4 (m * 60)) ∧
    leValue (hexToBytes ((turn_on_command m).drop 3)) = m * 60 := by
  have hdrop : (turn_on_command m).drop 3 = _timer_value m := by
    show (((Nat.repr ON).data ++ "00".data) ++ _timer_value m).drop 3 = _timer_value m
    have e : (Nat.repr ON).data ++ "00".data = ['1', '0', '0'] := by decide
    rw [e]
    rfl
  have htv : _timer_value m = bytesHex (packLE4 (m * 60)) := by
    by_cases h0 : m = 0
    · subst h0
      decide
    · simp [_timer_value, h0]
  constructor
  · rw [hdrop, htv]
  · rw [hdrop, htv, hexToBytes_bytesHex _ (packLE4_bytes_lt _), leValue_packLE4 _ hm]

/-- Witness for C8 at 10 minutes (little-endian 600) and 0 minutes. -/
theorem claim_C8_witness :
    (10 * 60 < 4294967296 ∧
      ((turn_on_command 10).drop 3 = bytesHex (packLE4 (10 * 60)) ∧
       leValue (hexToBytes ((turn_on_command 10).drop 3)) = 10 * 60)) ∧
    (0 * 60 < 4294967296 ∧
      ((turn_on_command 0).drop 3 = bytesHex (packLE4 (0 * 60)) ∧
       leValue (hexToBytes ((turn_on_command 0).drop 3)) = 0 * 60)) :=
  ⟨⟨by decide, claim_C8 10 (by decide)⟩, ⟨by decide, claim_C8 0 (by decide)⟩⟩

/-!  Byte slices of a buffer. -/

/-- A byte read at a valid index is bounded like the buffer's bytes. -/
theorem byteAt_lt (msg : List Nat) (hb : ∀ b ∈ msg, b < 256) (i : Nat) (h : i < msg.length) :
    byteAt msg i < 256 := by
  have e : byteAt msg i = msg.getD i 0 := rfl
  rw [e, List.getD_eq_getElem?_getD, List.getElem?_eq_getElem h]
  exact hb _ (List.getElem_mem h)

/-- A one-byte window. -/
theorem substr_one (l : List Nat) (i : Nat) (h : i < l.length) :
    substr l i 1 = [byteAt l i] := by
  show (l.drop i).take 1 = [l.getD i 0]
  rw [drop_getD l i h]
  rfl

/-- A two-byte window. -/
theorem substr_two (l : List Nat) (i : Nat) (h : i + 1 < l.length) :
    substr l i 2 = [byteAt l i, byteAt l (i + 1)] := by
  show (l.drop i).take 2 = [l.getD i 0, l.getD (i + 1) 0]
  rw [drop_getD l i (by omega), drop_getD l (i + 1) h]
  rfl

/-- A three-byte window. -/
theorem substr_three (l : List Nat) (i : Nat) (h : i + 2 < l.length) :
    substr l i 3 = [byteAt l i, byteAt l (i + 1), byteAt l (i + 2)] := by
  show (l.drop i).take 3 = [l.getD i 0, l.getD (i + 1) 0, l.getD (i + 2) 0]
  rw [drop_getD l i (by omega), drop_getD l (i + 1) (by omega)]
  have e : i + 1 + 1 = i + 2 := by omega
  rw [e, drop_getD l (i + 2) h]
  rfl

/-- Folding the hex accumulator through a lone encoded byte. -/
theorem foldlHex_byteHex_last (a b : Nat) (hb : b < 256) :
    List.foldl (fun x c => x * 16 + hexVal c) a (byteHex b) = a * 256 + b := by
  have h := foldlHex_byteHex a b hb []
  simpa using h

/-!  JavaScript 32-bit arithmetic in `inet_ntoa`. -/

/-- `(n >> 24) & 0xFF >>> 0` extracts the top byte of a 32-bit value. -/
theorem js_byte24 (n : Nat) (hn : n < 4294967296) :
    jsUShr0 (jsAnd255 (jsShr n 24)) = n / 16777216 % 256 := by
  unfold jsUShr0 jsAnd255 jsShr toInt32
  norm_num
  split_ifs <;> omega

/-- `(n >> 16) & 0xFF >>> 0` extracts the second byte of a 32-bit value. -/
theorem js_byte16 (n : Nat) (hn : n < 4294967296) :
    jsUShr0 (jsAnd255 (jsShr n 16)) = n / 65536 % 256 := by
  unfold jsUShr0 jsAnd255 jsShr toInt32
  norm_num
  split_ifs <;> omega

/-- `(n >> 8) & 0xFF >>> 0` extracts the third byte of a 32-bit value. -/
theorem js_byte8 (n : Nat) (hn : n < 4294967296) :
    jsUShr0 (jsAnd255 (jsShr n 8)) = n / 256 % 256 := by
  unfold jsUShr0 jsAnd255 jsShr toInt32
  norm_num
  split_ifs <;> omega

/-- `n & 0xFF >>> 0` extracts the low byte of a 32-bit value. -/
theorem js_byte0 (n : Nat) (hn : n < 4294967296) :
    jsUShr0 (jsAnd255 (toInt32 n)) = n % 256 := by
  unfold jsUShr0 jsAnd255 toInt32
  split_ifs <;> omega

/-- `inet_ntoa` renders a 32-bit big-endian packed address as the dotted
quad of its four bytes. -/
theorem inet_ntoa_bytes (a b c d : Nat) (ha : a < 256) (hb : b < 256) (hc : c < 256)
    (hd : d < 256) :
    inet_ntoa (((a * 256 + b) * 256 + c) * 256 + d) =
      Nat.repr a ++ "." ++ Nat.repr b ++ "." ++ Nat.repr c ++ "." ++ Nat.repr d := by
  set n := ((a * 256 + b) * 256 + c) * 256 + d with hdefn
  have hn : n < 4294967296 := by omega
  show Nat.repr (jsUShr0 (jsAnd255 (jsShr n 24))) ++ "." ++
    Nat.repr (jsUShr0 (jsAnd255 (jsShr n 16))) ++ "." ++
    Nat.repr (jsUShr0 (jsAnd255 (jsShr n 8))) ++ "." ++
    Nat.repr (jsUShr0 (jsAnd255 (toInt32 n))) = _
  rw [js_byte24 _ hn, js_byte16 _ hn, js_byte8 _ hn, js_byte0 _ hn]
  have ea : n / 16777216 % 256 = a := by omega
  have eb : n / 65536 % 256 = b := by omega
  have ec : n / 256 % 256 = c := by omega
  have ed : n % 256 = d := by omega
  rw [ea, eb, ec, ed]

/-- Two encoded bytes spell "0000" exactly when both bytes are zero. -/
theorem bytesHex_pair_zero_iff (a b : Nat) (ha : a < 256) (hb : b < 256) :
    bytesHex [a, b] = "0000".data ↔ (a = 0 ∧ b = 0) := by
  have hd : ∀ d, d < 16 → (hexDigit d = '0' ↔ d = 0) := by decide
  show hexDigit (a / 16) :: hexDigit (a % 16) :: hexDigit (b / 16) :: hexDigit (b % 16) :: [] =
    ['0', '0', '0', '0'] ↔ _
  simp only [List.cons.injEq, and_true]
  rw [hd _ (by omega), hd _ (by omega), hd _ (by omega), hd _ (by omega)]
  omega

/-- Claim C6: decoding a valid 165-byte broadcast frame reads each field
at its documented byte offset — device_id is the 3 raw bytes at offset
18 (as hex), switch_state is OFF exactly when the 2 bytes at offset 133
are zero and ON otherwise, power is the little-endian uint16 at offset
135, remaining seconds the little-endian uint32 at offset 147, default
shutdown seconds the little-endian uint32 at offset 155, and the source
address the big-endian 4 bytes at offset 76 as a dotted quad. -/
theorem claim_C6 (msg : List Nat) (hlen : msg.length = 165) (hb : ∀ b ∈ msg, b < 256)
    (hmagic : byteAt msg 0 = 254 ∧ byteAt msg 1 = 240) :
    extract_device_id msg = bytesHex [byteAt msg 18, byteAt msg 19, byteAt msg 20] ∧
    extract_switch_state msg =
      (if byteAt msg 133 = 0 ∧ byteAt msg 134 = 0 then OFF else ON) ∧
    extract_power_consumption msg = byteAt msg 135 + 256 * byteAt msg 136 ∧
    extract_shutdown_remaining_seconds msg = byteAt msg 147 + 256 * byteAt msg 148 +
      65536 * byteAt msg 149 + 16777216 * byteAt msg 150 ∧
    extract_default_shutdown_seconds msg = byteAt msg 155 + 256 * byteAt msg 156 +
      65536 * byteAt msg 157 + 16777216 * byteAt msg 158 ∧
    extract_ip_addr msg = Nat.repr (byteAt msg 76) ++ "." ++ Nat.repr (byteAt msg 77) ++ "." ++
      Nat.repr (byteAt msg 78) ++ "." ++ Nat.repr (byteAt msg 79) := by
  have hlt : ∀ i, i < 165 → byteAt msg i < 256 := fun i hi =>
    byteAt_lt msg hb i (by omega)
  have chunk : ∀ j, j < 165 → substr (data_hex msg) (2 * j) 2 = byteHex (byteAt msg j) ++ [] := by
    intro j hj
    calc substr (bytesHex msg) (2 * j) 2 = substr (bytesHex msg) (2 * j) (2 * 1) := rfl
      _ = bytesHex (substr msg j 1) := substr_bytesHex msg j 1
      _ = byteHex (byteAt msg j) ++ [] := by rw [substr_one msg j (by omega)]; rfl
  have chunkIn : ∀ base w off j, off + 2 ≤ w → base + off = 2 * j → j < 165 →
      substr (substr (data_hex msg) base w) off 2 = byteHex (byteAt msg j) ++ [] := by
    intro base w off j hw he hj
    show substr (substr (bytesHex msg) base w) off 2 = _
    rw [substr_substr (bytesHex msg) base w off 2 hw, he]
    exact chunk j hj
  refine ⟨?_, ?_, ?_, ?_, ?_, ?_⟩
  · show substr (data_hex msg) 36 6 = _
    calc substr (bytesHex msg) 36 6 = substr (bytesHex msg) (2 * 18) (2 * 3) := rfl
      _ = bytesHex (substr msg 18 3) := substr_bytesHex msg 18 3
      _ = _ := by
        rw [substr_three msg 18 (by omega)]
  · have hs4 : substr (data_hex msg) 266 4 = bytesHex [byteAt msg 133, byteAt msg 134] := by
      calc substr (bytesHex msg) 266 4 = substr (bytesHex msg) (2 * 133) (2 * 2) := rfl
        _ = bytesHex (substr msg 133 2) := substr_bytesHex msg 133 2
        _ = _ := by
          rw [substr_two msg 133 (by omega)]
    show (if substr (data_hex msg) 266 4 = "0000".data then OFF else ON) = _
    rw [hs4]
    exact if_congr (bytesHex_pair_zero_iff _ _ (hlt 133 (by omega)) (hlt 134 (by omega))) rfl rfl
  · have c135 := chunkIn 270 4 0 135 (by omega) (by norm_num) (by omega)
    have c136 := chunkIn 270 4 2 136 (by omega) (by norm_num) (by omega)
    show parseHex (substr (substr (data_hex msg) 270 4) 2 2 ++
      substr (substr (data_hex msg) 270 4) 0 2) = _
    rw [c135, c136]
    show List.foldl (fun x c => x * 16 + hexVal c) 0
      ((byteHex (byteAt msg 136) ++ []) ++ (byteHex (byteAt msg 135) ++ [])) = _
    rw [List.append_nil, List.append_nil, foldlHex_byteHex _ _ (hlt 136 (by omega)),
      foldlHex_byteHex_last _ _ (hlt 135 (by omega))]
    omega
  · have c147 := chunkIn 294 8 0 147 (by omega) (by norm_num) (by omega)
    have c148 := chunkIn 294 8 2 148 (by omega) (by norm_num) (by omega)
    have c149 := chunkIn 294 8 4 149 (by omega) (by norm_num) (by omega)
    have c150 := chunkIn 294 8 6 150 (by omega) (by norm_num) (by omega)
    show parseHex (substr (substr (data_hex msg) 294 8) 6 2 ++
      substr (substr (data_hex msg) 294 8) 4 2 ++ substr (substr (data_hex msg) 294 8) 2 2 ++
      substr (substr (data_hex msg) 294 8) 0 2) = _
    rw [c147, c148, c149, c150]
    show List.foldl (fun x c => x * 16 + hexVal c) 0
      (((byteHex (byteAt msg 150) ++ []) ++ (byteHex (byteAt msg 149) ++ []) ++
        (byteHex (byteAt msg 148) ++ [])) ++ (byteHex (byteAt msg 147) ++ [])) = _
    simp only [List.append_nil, List.append_assoc]
    rw [foldlHex_byteHex _ _ (hlt 150 (by omega)), foldlHex_byteHex _ _ (hlt 149 (by omega)),
      foldlHex_byteHex _ _ (hlt 148 (by omega)), foldlHex_byteHex_last _ _ (hlt 147 (by omega))]
    omega
  · have c155 := chunkIn 310 8 0 155 (by omega) (by norm_num) (by omega)
    have c156 := chunkIn 310 8 2 156 (by omega) (by norm_num) (by omega)
    have c157 := chunkIn 310 8 4 157 (by omega) (by norm_num) (by omega)
    have c158 := chunkIn 310 8 6 158 (by omega) (by norm_num) (by omega)
    show parseHex (substr (substr (data_hex msg) 310 8) 6 2 ++
      substr (substr (data_hex msg) 310 8) 4 2 ++ substr (substr (data_hex msg) 310 8) 2 2 ++
      substr (substr (data_hex msg) 310 8) 0 2) = _
    rw [c155, c156, c157, c158]
    show List.foldl (fun x c => x * 16 + hexVal c) 0
      (((byteHex (byteAt msg 158) ++ []) ++ (byteHex (byteAt msg 157) ++ []) ++
        (byteHex (byteAt msg 156) ++ [])) ++ (byteHex (byteAt msg 155) ++ [])) = _
    simp only [List.append_nil, List.append_assoc]
    rw [foldlHex_byteHex _ _ (hlt 158 (by omega)), foldlHex_byteHex _ _ (hlt 157 (by omega)),
      foldlHex_byteHex _ _ (hlt 156 (by omega)), foldlHex_byteHex_last _ _ (hlt 155 (by omega))]
    omega
  · have c76 := chunkIn 152 8 0 76 (by omega) (by norm_num) (by omega)
    have c77 := chunkIn 152 8 2 77 (by omega) (by norm_num) (by omega)
    have c78 := chunkIn 152 8 4 78 (by omega) (by norm_num) (by omega)
    have c79 := chunkIn 152 8 6 79 (by omega) (by norm_num) (by omega)
    show inet_ntoa (parseHex (substr (substr (data_hex msg) 152 8) 0 2 ++
      substr (substr (data_hex msg) 152 8) 2 2 ++ substr (substr (data_hex msg) 152 8) 4 2 ++
      substr (substr (data_hex msg) 152 8) 6 2)) = _
    rw [c76, c77, c78, c79]
    have hv : parseHex (((byteHex (byteAt msg 76) ++ []) ++ (byteHex (byteAt msg 77) ++ []) ++
        (byteHex (byteAt msg 78) ++ [])) ++ (byteHex (byteAt msg 79) ++ [])) =
        ((byteAt msg 76 * 256 + byteAt msg 77) * 256 + byteAt msg 78) * 256 + byteAt msg 79 := by
      show List.foldl (fun x c => x * 16 + hexVal c) 0 _ = _
      simp only [List.append_nil, List.append_assoc]
      rw [foldlHex_byteHex _ _ (hlt 76 (by omega)), foldlHex_byteHex _ _ (hlt 77 (by omega)),
        foldlHex_byteHex _ _ (hlt 78 (by omega)), foldlHex_byteHex_last _ _ (hlt 79 (by omega))]
      omega
    rw [hv]
    exact inet_ntoa_bytes _ _ _ _ (hlt 76 (by omega)) (hlt 77 (by omega)) (hlt 78 (by omega))
      (hlt 79 (by omega))

/-- Witness for C6 at a concrete 165-byte broadcast frame with device id
aa:bb:cc, address 192.168.1.5, state ON, 300 W, 60 s remaining and a
3600 s default shutdown. -/
theorem claim_C6_witness :
    (c6frame.length = 165 ∧ (∀ b ∈ c6frame, b < 256) ∧
      byteAt c6frame 0 = 254 ∧ byteAt c6frame 1 = 240) ∧
    (extract_device_id c6frame =
        bytesHex [byteAt c6frame 18, byteAt c6frame 19, byteAt c6frame 20] ∧
      extract_switch_state c6frame =
        (if byteAt c6frame 133 = 0 ∧ byteAt c6frame 134 = 0 then OFF else ON) ∧
      extract_power_consumption c6frame = byteAt c6frame 135 + 256 * byteAt c6frame 136 ∧
      extract_shutdown_remaining_seconds c6frame = byteAt c6frame 147 +
        256 * byteAt c6frame 148 + 65536 * byteAt c6frame 149 + 16777216 * byteAt c6frame 150 ∧
      extract_default_shutdown_seconds c6frame = byteAt c6frame 155 +
        256 * byteAt c6frame 156 + 65536 * byteAt c6frame 157 + 16777216 * byteAt c6frame 158 ∧
      extract_ip_addr c6frame = Nat.repr (byteAt c6frame 76) ++ "." ++
        Nat.repr (byteAt c6frame 77) ++ "." ++ Nat.repr (byteAt c6frame 78) ++ "." ++
        Nat.repr (byteAt c6frame 79)) :=
  ⟨⟨by decide, by decide, by decide, by decide⟩,
   claim_C6 c6frame (by decide) (by decide) ⟨by decide, by decide⟩⟩

/-!  Session-token reuse. -/

/-- Signing only appends: the signed frame extends the data. -/
theorem sign_exists_suffix (f k : List Char) :
    ∃ r, _crc_sign_full_packet_com_key f k = f ++ r := by
  have h : ∀ x y z w : List Char, (((f ++ x) ++ y) ++ z) ++ w = f ++ (x ++ (y ++ (z ++ w))) := by
    intro x y z w
    simp [List.append_assoc]
  unfold _crc_sign_full_packet_com_key
  dsimp only
  exact ⟨_, h _ _ _ _⟩

/-- With a truthy cached token, `_run_power_command` performs no login
exchange: the state is unchanged and exactly one frame — the signed
power frame carrying the cached token — is sent. -/
theorem run_power_cached (st : SwState) (t : List Char) (c ts : List Char) (r : List Nat)
    (hp : st.p_session = some t) (hne : t ≠ []) :
    _run_power_command st c ts r =
      (st, [_crc_sign_full_packet_com_key (power_data st t ts c) P_KEY.data]) := by
  have htruthy : jsTruthyStr (some t) = true := by
    show (!t.isEmpty) = true
    cases t with
    | nil => exact absurd rfl hne
    | cons a l => rfl
  simp [_run_power_command, _login, hp, htruthy]

/-- The token field of a frame shaped prefix/token/rest. -/
theorem tokenField_of_shape (a t z : List Char) (ha : a.length = 16) (ht : t.length = 8) :
    tokenField (a ++ (t ++ z)) = t := by
  show ((a ++ (t ++ z)).drop 16).take 8 = t
  rw [List.drop_left' ha, List.take_left' ht]

/-- A frame with the power-command header is not a login frame. -/
theorem looksLikeLogin_of_power_head (z : List Char) :
    looksLikeLogin ("fef05d0002320102".data ++ z) = false := by
  show (substr ("fef05d0002320102".data ++ z) 0 16 == "fef052000232a100".data) = false
  have e : substr ("fef05d0002320102".data ++ z) 0 16 = "fef05d0002320102".data := by
    show (("fef05d0002320102".data ++ z).drop 0).take 16 = "fef05d0002320102".data
    rw [List.drop_zero]
    exact List.take_left' (by decide)
  rw [e]
  decide

/-- Claim C5: after one successful login cached the (8-hex-character)
session token, two sequential power commands each send exactly one
frame, neither frame is a login frame, both frames embed the identical
cached token in the token field, and the cached token is unchanged —
no second login exchange happens. -/
theorem claim_C5 (st : SwState) (t c1 c2 ts1 ts2 : List Char) (r1 r2 : List Nat)
    (hp : st.p_session = some t) (hne : t ≠ []) (hlen : t.length = 8) :
    (_run_power_command st c1 ts1 r1).2.length = 1 ∧
    ((_run_power_command (_run_power_command st c1 ts1 r1).1 c2 ts2 r2).2).length = 1 ∧
    (∀ f ∈ (_run_power_command st c1 ts1 r1).2 ++
        (_run_power_command (_run_power_command st c1 ts1 r1).1 c2 ts2 r2).2,
      looksLikeLogin f = false ∧ tokenField f = t) ∧
    ((_run_power_command (_run_power_command st c1 ts1 r1).1 c2 ts2 r2).1).p_session =
      some t := by
  have hframe : ∀ (c ts : List Char),
      looksLikeLogin (_crc_sign_full_packet_com_key (power_data st t ts c) P_KEY.data) = false ∧
      tokenField (_crc_sign_full_packet_com_key (power_data st t ts c) P_KEY.data) = t := by
    intro c ts
    obtain ⟨r, hr⟩ := sign_exists_suffix (power_data st t ts c) P_KEY.data
    have hd : power_data st t ts c ++ r = "fef05d0002320102".data ++ (t ++
        ("340001000000000000000000".data ++ (ts ++ ("00000000000000000000f0fe".data ++
        (st.device_id ++ ("00".data ++ (st.phone_id ++ ("0000".data ++ (st.device_pass ++
        ("000000000000000000000000000000000000000000000000000000000106000".data ++
        (c ++ r))))))))))) := by
      show (((((((((((("fef05d0002320102".data ++ t) ++ "340001000000000000000000".data) ++
        ts) ++ "00000000000000000000f0fe".data) ++ st.device_id) ++ "00".data) ++
        st.phone_id) ++ "0000".data) ++ st.device_pass) ++
        "000000000000000000000000000000000000000000000000000000000106000".data) ++ c) ++ r) = _
      simp [List.append_assoc]
    rw [hr, hd]
    exact ⟨looksLikeLogin_of_power_head _, tokenField_of_shape _ _ _ (by decide) hlen⟩
  have h1 := run_power_cached st t c1 ts1 r1 hp hne
  have h2 := run_power_cached st t c2 ts2 r2 hp hne
  rw [h1]
  dsimp only
  rw [h2]
  dsimp only
  refine ⟨rfl, rfl, ?_, hp⟩
  intro f hf
  simp only [List.mem_append, List.mem_singleton] at hf
  rcases hf with hf | hf <;> subst hf
  · exact hframe c1 ts1
  · exact hframe c2 ts2

/-- Witness for C5: a logged-in state with token `1a2b3c4d` running two
concrete power commands. -/
theorem claim_C5_witness :
    (swState0.p_session = some "1a2b3c4d".data ∧ "1a2b3c4d".data ≠ [] ∧
      ("1a2b3c4d".data).length = 8) ∧
    ((_run_power_command swState0 "10000000000".data "aabbccdd".data [1, 2]).2.length = 1 ∧
      ((_run_power_command (_run_power_command swState0 "10000000000".data "aabbccdd".data
        [1, 2]).1 "00000000000".data "11223344".data [3, 4]).2).length = 1 ∧
      (∀ f ∈ (_run_power_command swState0 "10000000000".data "aabbccdd".data [1, 2]).2 ++
          (_run_power_command (_run_power_command swState0 "10000000000".data "aabbccdd".data
            [1, 2]).1 "00000000000".data "11223344".data [3, 4]).2,
        looksLikeLogin f = false ∧ tokenField f = "1a2b3c4d".data) ∧
      ((_run_power_command (_run_power_command swState0 "10000000000".data "aabbccdd".data
        [1, 2]).1 "00000000000".data "11223344".data [3, 4]).1).p_session =
        some "1a2b3c4d".data) :=
  ⟨⟨rfl, by decide, by decide⟩,
   claim_C5 swState0 "1a2b3c4d".data "10000000000".data "00000000000".data "aabbccdd".data
     "11223344".data [1, 2] [3, 4] rfl (by decide) (by decide)⟩

/-!  Device-name extraction (UTF-8 decode and UTF-16 indexing). -/

/-- The invalid lead byte 0xFE decodes to one replacement character. -/
theorem utf8d_fe (l : List Nat) : utf8d (254 :: l) = 65533 :: utf8d l := rfl

/-- An ASCII byte decodes to itself. -/
theorem utf8d_ascii_cons (b : Nat) (t : List Nat) (hb : b < 128) :
    utf8d (b :: t) = b :: utf8d t := by
  show utf8dF (t.length + 1) (b :: t) = b :: utf8dF t.length t
  simp only [utf8dF]
  rw [if_pos hb]

/-- A 0xF0 lead byte followed by an ASCII byte is one replacement
character; decoding resumes at the ASCII byte. -/
theorem utf8d_f0_ascii (c : Nat) (l : List Nat) (hc : c < 128) :
    utf8d (240 :: c :: l) = 65533 :: utf8d (c :: l) := by
  show utf8dF ((c :: l).length + 1) (240 :: c :: l) =
    65533 :: utf8dF (c :: l).length (c :: l)
  simp only [utf8dF]
  norm_num
  intro h
  exact absurd h (by omega)

/-- Decoding a buffer whose first `k` bytes are ASCII passes them
through and decodes the remainder independently. -/
theorem utf8d_ascii_chunk : ∀ (k : Nat) (l : List Nat), (∀ b ∈ l.take k, b < 128) →
    utf8d l = l.take k ++ utf8d (l.drop k)
  | 0, l, _ => by simp
  | _ + 1, [], _ => by simp
  | k + 1, b :: t, h => by
    have hb : b < 128 := h b (by
      rw [List.take_succ_cons]
      exact List.mem_cons_self b _)
    rw [utf8d_ascii_cons b t hb, utf8d_ascii_chunk k t (fun x hx => h x (by
      rw [List.take_succ_cons]
      exact List.mem_cons_of_mem b hx))]
    simp

/-- Scalars below 2^16 are single UTF-16 units; a prefix of such
scalars passes through the unit conversion. -/
theorem utf16units_append_small : ∀ (l1 l2 : List Nat), (∀ s ∈ l1, s < 65536) →
    utf16units (l1 ++ l2) = l1 ++ utf16units l2
  | [], _, _ => rfl
  | s :: t, l2, h => by
    have hs : s < 65536 := h s (List.mem_cons_self s t)
    show utf16units (s :: (t ++ l2)) = s :: (t ++ utf16units l2)
    have e : utf16units (s :: (t ++ l2)) = s :: utf16units (t ++ l2) := by
      simp only [utf16units]
      rw [if_pos hs]
    rw [e, utf16units_append_small t l2 (fun x hx => h x (List.mem_cons_of_mem s hx))]

/-- Claim C7, amended: on a valid 165-byte broadcast frame whose bytes
after the magic are ASCII through the name region, the decoded device
name is the 32 bytes starting at byte offset 40 — not offset 20 as the
claim states — with all NUL bytes removed.  (The magic bytes 0xFE 0xF0
each decode to one replacement character, so JavaScript character
offsets coincide with byte offsets.) -/
theorem claim_C7 (msg rest : List Nat) (hm : msg = 254 :: 240 :: rest)
    (hlen : msg.length = 165) (hascii : ∀ b ∈ rest.take 70, b < 128) :
    extract_device_name msg = ((msg.drop 40).take 32).filter (fun u => u != 0) := by
  subst hm
  have hrl : rest.length = 163 := by
    simp only [List.length_cons] at hlen
    omega
  obtain ⟨r0, rs, rfl⟩ : ∃ r0 rs, rest = r0 :: rs := by
    cases rest with
    | nil => simp at hrl
    | cons a l => exact ⟨a, l, rfl⟩
  have hr0 : r0 < 128 := hascii r0 (by
    rw [List.take_succ_cons]
    exact List.mem_cons_self r0 _)
  have hdec : utf8d (254 :: 240 :: r0 :: rs) = 65533 :: 65533 :: utf8d (r0 :: rs) := by
    rw [utf8d_fe, utf8d_f0_ascii r0 rs hr0]
  have hchunk : utf8d (r0 :: rs) = (r0 :: rs).take 70 ++ utf8d ((r0 :: rs).drop 70) :=
    utf8d_ascii_chunk 70 (r0 :: rs) hascii
  have hsmall : ∀ s ∈ (65533 : Nat) :: 65533 :: (r0 :: rs).take 70, s < 65536 := by
    intro s hs
    rcases List.mem_cons.mp hs with h | hs2
    · omega
    rcases List.mem_cons.mp hs2 with h | hs3
    · omega
    · have := hascii s hs3
      omega
  have hds : data_str (254 :: 240 :: r0 :: rs) =
      ((65533 : Nat) :: 65533 :: (r0 :: rs).take 70) ++ utf16units (utf8d ((r0 :: rs).drop 70)) := by
    show utf16units (utf8d (254 :: 240 :: r0 :: rs)) = _
    rw [hdec, hchunk]
    have e : (65533 : Nat) :: 65533 :: ((r0 :: rs).take 70 ++ utf8d ((r0 :: rs).drop 70)) =
        ((65533 : Nat) :: 65533 :: (r0 :: rs).take 70) ++ utf8d ((r0 :: rs).drop 70) := by
      simp
    rw [e]
    exact utf16units_append_small _ _ hsmall
  have hrs : rs.length = 162 := by
    simp only [List.length_cons] at hrl
    omega
  have hAlen : 40 ≤ ((65533 : Nat) :: 65533 :: (r0 :: rs).take 70).length := by
    simp only [List.length_cons, List.length_take]
    omega
  have hdl : (((r0 :: rs).take 70).drop 38).length = 32 := by
    simp only [List.length_drop, List.length_take, List.length_cons]
    omega
  have hsub : substr (((65533 : Nat) :: 65533 :: (r0 :: rs).take 70) ++
      utf16units (utf8d ((r0 :: rs).drop 70))) 40 32 = ((r0 :: rs).drop 38).take 32 := by
    show ((((65533 : Nat) :: 65533 :: (r0 :: rs).take 70) ++
      utf16units (utf8d ((r0 :: rs).drop 70))).drop 40).take 32 = _
    rw [List.drop_append_of_le_length hAlen]
    have e40 : ((65533 : Nat) :: 65533 :: (r0 :: rs).take 70).drop 40 ++
        utf16units (utf8d ((r0 :: rs).drop 70)) =
        ((r0 :: rs).take 70).drop 38 ++ utf16units (utf8d ((r0 :: rs).drop 70)) := rfl
    rw [e40, List.take_left' hdl, List.drop_take]
  show (substr (data_str (254 :: 240 :: r0 :: rs)) 40 32).filter (fun u => u != 0) = _
  rw [hds, hsub]
  have e3 : ((254 : Nat) :: 240 :: r0 :: rs).drop 40 = (r0 :: rs).drop 38 := rfl
  rw [e3]

/-- Counterexample to C7 as stated: on a concrete valid frame whose
bytes 20..52 and 40..72 differ, the decoded device name is not the
NUL-trimmed 32 bytes at offset 20. -/
theorem claim_C7_counterexample :
    extract_device_name ex7frame ≠ ((ex7frame.drop 20).take 32).filter (fun u => u != 0) := by
  decide

/-- Witness for the amended C7 at the concrete frame `ex7frame`, whose
device name field (bytes 40..72) reads "NAME!!!!". -/
theorem claim_C7_witness :
    (ex7frame = 254 :: 240 :: ex7rest ∧ ex7frame.length = 165 ∧
      (∀ b ∈ ex7rest.take 70, b < 128)) ∧
    extract_device_name ex7frame = ((ex7frame.drop 40).take 32).filter (fun u => u != 0) :=
  ⟨⟨rfl, by decide, by decide⟩, claim_C7 ex7frame ex7rest rfl (by decide) (by decide)⟩
